import Mathlib

/-!
# Formant-extraction pipeline: shallow embedding and verification

This file embeds the processing cell of `01_extract_formants.ipynb` (the
vowel-token segmentation and sampling protocol) and proves properties of
the embedding.

Modelling conventions:
* Times and frequencies are rationals (`ℚ`); Python `int()` truncation is
  `pyInt`.
* The external AnnotationGrid reader (Praat TextGrid queries made through
  `parselmouth.praat.call`) is embedded as total functions over an explicit
  `TextGrid` structure, with Praat's 1-based indexing; an out-of-range
  query yields the neutral value (`""`, `0`) and `Get interval at time`
  yields `0` when no interval of the addressed tier contains the time,
  following the spec's external interface
  `intervalContaining(grid, tierIdx, time) -> intervalIdx | none`.
* The external acoustic front-end (`to_formant_burg` / `Get value at time`)
  is an abstract function `Formant`; an undefined (NaN) reading is `none`.
-/

namespace VSD

/-- An interval of a TextGrid tier: a label over a span of time.
(`stop` stands for the source's `end`, a Lean keyword.) -/
structure Interval where
  label : String
  start : ℚ
  stop : ℚ
deriving DecidableEq, Repr

/-- A named tier: an ordered list of intervals. -/
structure Tier where
  name : String
  intervals : List Interval
deriving DecidableEq, Repr

/-- A TextGrid: an ordered list of tiers. Praat addresses tiers and
intervals with 1-based indices. -/
structure TextGrid where
  tiers : List Tier
deriving DecidableEq, Repr

/-- The acoustic front-end's `Get value at time` query: formant component
and time to measured value; `none` is Praat's undefined (NaN) reading. -/
def Formant : Type := ℕ → ℚ → Option ℚ

/-- Praat `Get number of tiers`. -/
def getNumberOfTiers (tg : TextGrid) : ℕ := tg.tiers.length

/-- Praat `Get tier name` (1-based; `0` is out of range). -/
def getTierName (tg : TextGrid) (tierIdx : ℕ) : String :=
  if tierIdx = 0 then ""
  else ((tg.tiers.get? (tierIdx - 1)).map Tier.name).getD ""

/-- Praat `Get number of intervals` (1-based tier index). -/
def getNumberOfIntervals (tg : TextGrid) (tierIdx : ℕ) : ℕ :=
  if tierIdx = 0 then 0
  else ((tg.tiers.get? (tierIdx - 1)).map (fun t => t.intervals.length)).getD 0

/-- Praat `Get label of interval` (1-based indices).  Modelled from the
spec for the out-of-range case, in particular interval index `0` (the
`none` result of the interval-containment query): the query yields the
empty label, so that downstream "no covering interval" collapses into the
"covering interval with blank label" case, exactly the collapse the spec
prescribes for the word lookup. -/
def getLabelOfInterval (tg : TextGrid) (tierIdx intervalIdx : ℕ) : String :=
  if tierIdx = 0 ∨ intervalIdx = 0 then ""
  else (((tg.tiers.get? (tierIdx - 1)).bind
      (fun t => t.intervals.get? (intervalIdx - 1))).map Interval.label).getD ""

/-- Praat `Get starting point` (1-based indices; out of range yields 0). -/
def getStartingPoint (tg : TextGrid) (tierIdx intervalIdx : ℕ) : ℚ :=
  if tierIdx = 0 ∨ intervalIdx = 0 then 0
  else (((tg.tiers.get? (tierIdx - 1)).bind
      (fun t => t.intervals.get? (intervalIdx - 1))).map Interval.start).getD 0

/-- Praat `Get end point` (1-based indices; out of range yields 0). -/
def getEndPoint (tg : TextGrid) (tierIdx intervalIdx : ℕ) : ℚ :=
  if tierIdx = 0 ∨ intervalIdx = 0 then 0
  else (((tg.tiers.get? (tierIdx - 1)).bind
      (fun t => t.intervals.get? (intervalIdx - 1))).map Interval.stop).getD 0

/-- Whether an interval's time span contains a time. -/
def containsTime (iv : Interval) (t : ℚ) : Bool :=
  decide (iv.start ≤ t ∧ t ≤ iv.stop)

/-- Praat `Get interval at time`: the 1-based index of the first interval
of the addressed tier containing the time, `0` when there is none
(the spec's `intervalContaining -> intervalIdx | none`). -/
def getIntervalAtTime (tg : TextGrid) (tierIdx : ℕ) (t : ℚ) : ℕ :=
  match tg.tiers.get? (tierIdx - 1) with
  | none => 0
  | some tier =>
    match tier.intervals.findIdx? (fun iv => containsTime iv t) with
    | none => 0
    | some i => i + 1

/-- Python `int()` on a rational: truncation toward zero (`Int.tdiv` is
truncating division, and a rational's denominator is positive). -/
def pyInt (q : ℚ) : ℤ := q.num.tdiv q.den

/-- The character class `[a,e,i,o,u,j,w]` of the source regex, taken
literally: besides the seven letters it contains the comma that the source
uses as a separator inside the brackets. -/
def vowelClass : List Char := ['a', ',', 'e', 'i', 'o', 'u', 'j', 'w']

/-- `re.search(r'^[a,e,i,o,u,j,w]\+?', label)` (source line 130): the
pattern is anchored at position 0 by `^` (no MULTILINE flag); it consumes
one character of the class and then an optional `+`, which can never block
a match, so the search succeeds exactly when the label's first character
belongs to the class. -/
def vowelRegexMatches (label : String) : Bool :=
  match label.data with
  | [] => false
  | c :: _ => vowelClass.contains c

/-- The guard `if label and re.search(r'^[a,e,i,o,u,j,w]\+?', label)`:
Python truthiness of the label (non-empty) and the regex search. -/
def vowelGuard (label : String) : Bool :=
  (label != "") && vowelRegexMatches label

/-- Source lines 135-138: word-context lookup, performed once per vowel
token at its midpoint, on the hard-coded tier index 1 (the first tier). -/
def wordAtMidpoint (tg : TextGrid) (start stop : ℚ) : String :=
  let word_tier_idx := 1
  let midpoint := (stop + start) / 2
  let word_interval := getIntervalAtTime tg word_tier_idx midpoint
  getLabelOfInterval tg word_tier_idx word_interval

/-- One output record of the processing cell (`data.append({...})`). -/
structure Row where
  videoID : String
  vowel : String
  vowel_onset_time : ℚ
  time_of_formant_measurements : ℚ
  time_from_vowel_onset : ℚ
  f1 : Option ℚ
  f2 : Option ℚ
  participant : String
  task : String
  word : String
deriving DecidableEq, Repr

/-- The body of the segment loop (source lines 144-162): the record built
for one `segmentIdx`.  Python slices on the filename are embedded as
`file[:-4] = take (length - 4)`, `file[:4] = take 4`,
`file[5:-4] = drop 5 of take (length - 4)` (all clamp alike, characters
being Unicode code points on both sides). -/
def segmentRow (segment_window : ℚ) (formant : Formant) (file : String)
    (label : String) (start : ℚ) (word : String) (segmentIdx : ℕ) : Row :=
  let spot := start + (segmentIdx : ℚ) * segment_window
  let tim_int := spot - start
  { videoID := String.take file (file.length - 4)
    vowel := String.take label 1
    vowel_onset_time := start
    time_of_formant_measurements := spot
    time_from_vowel_onset := tim_int
    f1 := formant 1 spot
    f2 := formant 2 spot
    participant := String.take file 4
    task := String.drop (String.take file (file.length - 4)) 5
    word := if word != "" then word else "PROBLEM" }

/-- The body of the interval loop: rows contributed by one interval of a
resolved phone tier.  Mirrors source lines 125-162: the vowel guard, the
start/end/duration reads, the midpoint word lookup hoisted above the
segment loop, the segment count `int(dur / segment_window)`, and the
segment loop `for segmentIdx in range(1, numSegments + 1)`. -/
def rowsForInterval (segment_window : ℚ) (formant : Formant) (file : String)
    (tg : TextGrid) (tierIdx intervalIdx : ℕ) : List Row :=
  let label := getLabelOfInterval tg tierIdx intervalIdx
  if vowelGuard label = true then
    let start := getStartingPoint tg tierIdx intervalIdx
    let stop := getEndPoint tg tierIdx intervalIdx
    let dur := stop - start
    let word := wordAtMidpoint tg start stop
    let numSegments := (pyInt (dur / segment_window)).toNat
    (List.range' 1 numSegments).map
      (segmentRow segment_window formant file label start word)
  else []

/-- The body of the tier loop: rows contributed by one tier, after the
name-based phone-tier resolution `if tierName in phones_tiers`. -/
def rowsForTier (phones_tiers : List String) (segment_window : ℚ)
    (formant : Formant) (file : String) (tg : TextGrid) (tierIdx : ℕ) :
    List Row :=
  let tierName := getTierName tg tierIdx
  if phones_tiers.contains tierName then
    let numIntervals := getNumberOfIntervals tg tierIdx
    (List.range' 1 numIntervals).flatMap
      (rowsForInterval segment_window formant file tg tierIdx)
  else []

/-- Rows contributed by one audio file, iterating
`for tierIdx in range(1, numTiers + 1)`. -/
def rowsForFile (phones_tiers : List String) (segment_window : ℚ)
    (formant : Formant) (file : String) (tg : TextGrid) : List Row :=
  let numTiers := getNumberOfTiers tg
  (List.range' 1 numTiers).flatMap
    (rowsForTier phones_tiers segment_window formant file tg)

/-- The alignment path probed for an audio file:
`tg_path + file[:-4] + '.TextGrid'`. -/
def tgPathFor (tg_path file : String) : String :=
  tg_path ++ String.take file (file.length - 4) ++ ".TextGrid"

/-- The batch loop over the directory listing: keep files ending in
`.wav` whose same-stem TextGrid exists, and process each in enumeration
order.  `tgExists` embeds `os.path.exists`; `loadTG` and `loadFormant`
embed `parselmouth.Data.read` and
`parselmouth.Sound(...).to_formant_burg(...)`. -/
def processBatch (phones_tiers : List String) (segment_window : ℚ)
    (tg_path : String) (tgExists : String → Bool)
    (loadTG : String → TextGrid) (loadFormant : String → Formant)
    (files : List String) : List Row :=
  files.flatMap (fun file =>
    if file.endsWith ".wav" then
      if tgExists (tgPathFor tg_path file) then
        rowsForFile phones_tiers segment_window (loadFormant file) file
          (loadTG file)
      else []
    else [])

/-- Replace every tier's name, keeping its intervals; used to state that
the word-context lookup never depends on tier names. -/
def withTierNames (f : String → String) (tg : TextGrid) : TextGrid :=
  ⟨tg.tiers.map (fun t => ⟨f t.name, t.intervals⟩)⟩

/-! ### Concrete fixtures -/

/-- A front-end that is undefined (NaN) everywhere. -/
def fmNone : Formant := fun _ _ => none

/-- A front-end with a definite reading everywhere. -/
def fmLin : Formant := fun c t => some ((c : ℚ) * 1000 + t)

/-- Demo grid: word tier first, then a tier named `phones` with one
vowel interval labelled `o+` over `[0, 2]`. -/
def tgDemo : TextGrid :=
  ⟨[⟨"words", [⟨"no", 0, 2⟩]⟩, ⟨"phones", [⟨"o+", 0, 2⟩]⟩]⟩

/-- Like `tgDemo`, but the phone interval is labelled `,`. -/
def tgComma : TextGrid :=
  ⟨[⟨"words", [⟨"no", 0, 2⟩]⟩, ⟨"phones", [⟨",", 0, 2⟩]⟩]⟩

/-- Like `tgDemo`, but the phone interval is labelled `p` (not a vowel). -/
def tgP : TextGrid :=
  ⟨[⟨"words", [⟨"no", 0, 2⟩]⟩, ⟨"phones", [⟨"p", 0, 2⟩]⟩]⟩

/-- Like `tgDemo`, but the word tier does not cover the phone interval's
midpoint. -/
def tgNoWord : TextGrid :=
  ⟨[⟨"words", [⟨"no", 10, 11⟩]⟩, ⟨"phones", [⟨"o", 0, 2⟩]⟩]⟩

/-- First row produced for `tgDemo` with window 1 and front-end `fmLin`. -/
def rowDemo1 : Row :=
  ⟨"p113_int", "o", 0, 1, 1, some 1001, some 2001, "p113", "int", "no"⟩

/-- Second row produced for `tgDemo` with window 1 and front-end `fmLin`. -/
def rowDemo2 : Row :=
  ⟨"p113_int", "o", 0, 2, 2, some 1002, some 2002, "p113", "int", "no"⟩

/-! ### Helper lemmas -/

/-- `pyInt` agrees with the floor on nonnegative rationals. -/
lemma pyInt_eq_floor {q : ℚ} (h : 0 ≤ q) : pyInt q = ⌊q⌋ := by
  unfold pyInt
  rw [Int.tdiv_eq_ediv (Rat.num_nonneg.mpr h) (by positivity)]
  exact Rat.floor_def.symm

/-- Unfolding of `rowsForInterval` when the vowel guard passes. -/
lemma rowsForInterval_of_guard {w : ℚ} {fm : Formant} {file : String}
    {tg : TextGrid} {ti ii : ℕ}
    (h : vowelGuard (getLabelOfInterval tg ti ii) = true) :
    rowsForInterval w fm file tg ti ii =
      (List.range' 1 ((pyInt ((getEndPoint tg ti ii -
          getStartingPoint tg ti ii) / w)).toNat)).map
        (segmentRow w fm file (getLabelOfInterval tg ti ii)
          (getStartingPoint tg ti ii)
          (wordAtMidpoint tg (getStartingPoint tg ti ii)
            (getEndPoint tg ti ii))) := by
  simp only [rowsForInterval, h, if_true]

/-- `rowsForInterval` is empty when the vowel guard fails. -/
lemma rowsForInterval_of_not_guard {w : ℚ} {fm : Formant} {file : String}
    {tg : TextGrid} {ti ii : ℕ}
    (h : vowelGuard (getLabelOfInterval tg ti ii) = false) :
    rowsForInterval w fm file tg ti ii = [] := by
  simp [rowsForInterval, h]

/-- Any member of `rowsForInterval` is a `segmentRow` at a 1-based segment
index within the segment count, and the guard passed. -/
lemma of_mem_rowsForInterval {w : ℚ} {fm : Formant} {file : String}
    {tg : TextGrid} {ti ii : ℕ} {r : Row}
    (hr : r ∈ rowsForInterval w fm file tg ti ii) :
    vowelGuard (getLabelOfInterval tg ti ii) = true ∧
    ∃ k : ℕ, 1 ≤ k ∧
      k ≤ (pyInt ((getEndPoint tg ti ii - getStartingPoint tg ti ii) /
        w)).toNat ∧
      r = segmentRow w fm file (getLabelOfInterval tg ti ii)
        (getStartingPoint tg ti ii)
        (wordAtMidpoint tg (getStartingPoint tg ti ii)
          (getEndPoint tg ti ii)) k := by
  by_cases h : vowelGuard (getLabelOfInterval tg ti ii) = true
  · refine ⟨h, ?_⟩
    rw [rowsForInterval_of_guard h] at hr
    rcases List.mem_map.mp hr with ⟨k, hk, rfl⟩
    rcases List.mem_range'_1.mp hk with ⟨hk1, hk2⟩
    exact ⟨k, hk1, by omega, rfl⟩
  · rw [rowsForInterval_of_not_guard (by simpa using h)] at hr
    simp at hr

/-- Unfolding of `rowsForTier` when the tier's name is resolved as a
phone tier. -/
lemma rowsForTier_of_resolved {pt : List String} {w : ℚ} {fm : Formant}
    {file : String} {tg : TextGrid} {ti : ℕ}
    (h : pt.contains (getTierName tg ti) = true) :
    rowsForTier pt w fm file tg ti =
      (List.range' 1 (getNumberOfIntervals tg ti)).flatMap
        (rowsForInterval w fm file tg ti) := by
  simp only [rowsForTier, h, if_true]

/-- `rowsForTier` is empty when the tier's name is not resolved. -/
lemma rowsForTier_of_not_resolved {pt : List String} {w : ℚ} {fm : Formant}
    {file : String} {tg : TextGrid} {ti : ℕ}
    (h : pt.contains (getTierName tg ti) = false) :
    rowsForTier pt w fm file tg ti = [] := by
  simp only [rowsForTier]
  rw [if_neg (by simpa using h)]

/-- Any member of `rowsForFile` is a member of some `rowsForInterval`. -/
lemma of_mem_rowsForFile {pt : List String} {w : ℚ} {fm : Formant}
    {file : String} {tg : TextGrid} {r : Row}
    (hr : r ∈ rowsForFile pt w fm file tg) :
    ∃ ti ii : ℕ, r ∈ rowsForInterval w fm file tg ti ii := by
  rcases List.mem_flatMap.mp hr with ⟨ti, _, hti⟩
  by_cases h : pt.contains (getTierName tg ti) = true
  · rw [rowsForTier_of_resolved h] at hti
    rcases List.mem_flatMap.mp hti with ⟨ii, _, hii⟩
    exact ⟨ti, ii, hii⟩
  · rw [rowsForTier_of_not_resolved (by simpa using h)] at hti
    simp at hti

/-- Concrete evaluation: the rows produced for `tgDemo`'s phone interval
with a 1-second window. -/
lemma tgDemo_interval_rows :
    rowsForInterval 1 fmLin "p113_int.wav" tgDemo 2 1 =
      [rowDemo1, rowDemo2] := by
  norm_num [rowsForInterval, segmentRow, getLabelOfInterval, getStartingPoint,
    getEndPoint, wordAtMidpoint, getIntervalAtTime, containsTime, pyInt,
    vowelGuard, vowelRegexMatches, vowelClass, List.range', tgDemo, fmLin,
    List.findIdx?, rowDemo1, rowDemo2]
  decide

/-- Concrete evaluation: the rows produced for the whole `tgDemo` file. -/
lemma tgDemo_file_rows :
    rowsForFile ["phones"] 1 fmLin "p113_int.wav" tgDemo =
      [rowDemo1, rowDemo2] := by
  norm_num [rowsForFile, rowsForTier, rowsForInterval, segmentRow,
    getNumberOfTiers, getTierName, getNumberOfIntervals, getLabelOfInterval,
    getStartingPoint, getEndPoint, wordAtMidpoint, getIntervalAtTime,
    containsTime, pyInt, vowelGuard, vowelRegexMatches, vowelClass,
    List.range', tgDemo, fmLin, List.findIdx?, rowDemo1, rowDemo2]
  decide

/-! ### Claims -/

/-- C1, counterexample: on a resolved phone tier, the interval labelled
`","` — a label whose first character is none of the seven characters
a, e, i, o, u, j, w — still produces a vowel token (its rows are emitted),
because the character class of the source regex literally contains the
comma separators.  This refutes the "only if" direction of the claim. -/
theorem vowel_filter_comma_counterexample :
    getLabelOfInterval tgComma 2 1 = "," ∧
    ',' ∉ (['a', 'e', 'i', 'o', 'u', 'j', 'w'] : List Char) ∧
    rowsForFile ["phones"] 1 fmNone "p113_int.wav" tgComma ≠ [] := by
  refine ⟨by decide, by decide, ?_⟩
  have h : rowsForFile ["phones"] 1 fmNone "p113_int.wav" tgComma =
      [segmentRow 1 fmNone "p113_int.wav" "," 0 "no" 1,
       segmentRow 1 fmNone "p113_int.wav" "," 0 "no" 2] := by
    norm_num [rowsForFile, rowsForTier, rowsForInterval, getNumberOfTiers,
      getTierName, getNumberOfIntervals, getLabelOfInterval, getStartingPoint,
      getEndPoint, wordAtMidpoint, getIntervalAtTime, containsTime, pyInt,
      vowelGuard, vowelRegexMatches, vowelClass, List.range', tgComma,
      List.findIdx?]
    simp
  simp [h]

/-- C1 (amended): a label on a resolved phone tier passes the vowel filter
— and only then does its interval contribute rows — exactly when it is
non-empty and its first character is one of the EIGHT characters
a, e, i, o, u, j, w and the comma (`vowelClass`, the literal content of
the source regex's character class); matching is anchored at the start of
the label, case-sensitive, with no other character constrained. -/
theorem vowel_filter_amended :
    (∀ label : String, vowelGuard label = true ↔
      ∃ c cs, label.data = c :: cs ∧ c ∈ vowelClass) ∧
    (∀ (w : ℚ) (fm : Formant) (file : String) (tg : TextGrid) (ti ii : ℕ),
      vowelGuard (getLabelOfInterval tg ti ii) = false →
      rowsForInterval w fm file tg ti ii = []) := by
  refine ⟨fun label => ?_,
    fun w fm file tg ti ii h => rowsForInterval_of_not_guard h⟩
  constructor
  · intro h
    rw [vowelGuard, Bool.and_eq_true] at h
    obtain ⟨hne, hm⟩ := h
    rw [vowelRegexMatches] at hm
    cases hld : label.data with
    | nil => rw [hld] at hm; simp at hm
    | cons c cs =>
      rw [hld] at hm
      exact ⟨c, cs, rfl, by simpa using hm⟩
  · rintro ⟨c, cs, hcs, hc⟩
    rw [vowelGuard, Bool.and_eq_true]
    refine ⟨?_, ?_⟩
    · rw [bne_iff_ne]
      intro he
      rw [he] at hcs
      simp at hcs
    · rw [vowelRegexMatches, hcs]
      simpa using hc

/-- C1 witness: the label `o+` passes the filter (its first character `o`
is in the class), and the non-vowel label `p` contributes no rows. -/
theorem vowel_filter_amended_witness :
    (vowelGuard "o+" = true ↔
      ∃ c cs, ("o+" : String).data = c :: cs ∧ c ∈ vowelClass) ∧
    rowsForInterval 1 fmNone "p113_int.wav" tgP 2 1 = [] :=
  ⟨vowel_filter_amended.1 "o+",
   vowel_filter_amended.2 1 fmNone "p113_int.wav" tgP 2 1 (by decide)⟩

/-- C2: for a qualifying vowel token (the guard passed) with positive
window and nonnegative duration, the number of emitted rows is
`floor(duration / segmentWindow)`; a duration of exactly `n × window`
yields `n` rows, and a duration shorter than one window yields zero
rows. -/
theorem segment_count_floor (w : ℚ) (fm : Formant) (file : String)
    (tg : TextGrid) (ti ii : ℕ)
    (hguard : vowelGuard (getLabelOfInterval tg ti ii) = true)
    (hw : 0 < w)
    (hdur : 0 ≤ getEndPoint tg ti ii - getStartingPoint tg ti ii) :
    (rowsForInterval w fm file tg ti ii).length =
      (⌊(getEndPoint tg ti ii - getStartingPoint tg ti ii) / w⌋).toNat ∧
    (∀ n : ℕ, getEndPoint tg ti ii - getStartingPoint tg ti ii = n * w →
      (rowsForInterval w fm file tg ti ii).length = n) ∧
    (getEndPoint tg ti ii - getStartingPoint tg ti ii < w →
      (rowsForInterval w fm file tg ti ii).length = 0) := by
  have hlen : (rowsForInterval w fm file tg ti ii).length =
      (pyInt ((getEndPoint tg ti ii - getStartingPoint tg ti ii) / w)).toNat := by
    rw [rowsForInterval_of_guard hguard, List.length_map, List.length_range']
  have hfloor : pyInt ((getEndPoint tg ti ii - getStartingPoint tg ti ii) / w) =
      ⌊(getEndPoint tg ti ii - getStartingPoint tg ti ii) / w⌋ :=
    pyInt_eq_floor (div_nonneg hdur hw.le)
  refine ⟨by rw [hlen, hfloor], fun n hn => ?_, fun hlt => ?_⟩
  · rw [hlen, hfloor, hn, mul_div_cancel_right₀ _ hw.ne']
    simp
  · rw [hlen, hfloor]
    have h0 : ⌊(getEndPoint tg ti ii - getStartingPoint tg ti ii) / w⌋ = 0 := by
      rw [Int.floor_eq_zero_iff]
      exact ⟨div_nonneg hdur hw.le, (div_lt_one hw).mpr hlt⟩
    simp [h0]

/-- C2 witness: `tgDemo`'s token has duration 2 and window 1, giving
`floor(2/1) = 2` rows. -/
theorem segment_count_floor_witness :
    (rowsForInterval 1 fmLin "p113_int.wav" tgDemo 2 1).length =
      (⌊(getEndPoint tgDemo 2 1 - getStartingPoint tgDemo 2 1) / 1⌋).toNat :=
  (segment_count_floor 1 fmLin "p113_int.wav" tgDemo 2 1 (by decide)
    (by norm_num)
    (by norm_num [getEndPoint, getStartingPoint, tgDemo])).1

/-- The row at (0-based) position `k` of `rowsForInterval` is the
`segmentRow` at 1-based segment index `1 + k`. -/
lemma get?_rowsForInterval {w : ℚ} {fm : Formant} {file : String}
    {tg : TextGrid} {ti ii : ℕ} {k : ℕ} {r : Row}
    (h : (rowsForInterval w fm file tg ti ii).get? k = some r) :
    r = segmentRow w fm file (getLabelOfInterval tg ti ii)
      (getStartingPoint tg ti ii)
      (wordAtMidpoint tg (getStartingPoint tg ti ii) (getEndPoint tg ti ii))
      (1 + k) := by
  by_cases hg : vowelGuard (getLabelOfInterval tg ti ii) = true
  · rw [rowsForInterval_of_guard hg] at h
    rcases List.get?_eq_some.mp h with ⟨hk, hget⟩
    rw [← hget, List.get_eq_getElem, List.getElem_map, List.getElem_range']
    norm_num
  · rw [rowsForInterval_of_not_guard (by simpa using hg)] at h
    simp at h

/-- C3: within a token (hypotheses vacuous when no row exists), the row at
0-based position `k` — the `k+1`-st segment — has sample time
`start + (k+1) × segmentWindow` and offset `sampleTime - start`; sample
times are strictly increasing within the token, the first sample time is
`start + segmentWindow`, and no sample time equals `start`. -/
theorem sample_times (w : ℚ) (fm : Formant) (file : String) (tg : TextGrid)
    (ti ii : ℕ) (hw : 0 < w) :
    (∀ (k : ℕ) (r : Row),
      (rowsForInterval w fm file tg ti ii).get? k = some r →
      r.time_of_formant_measurements =
        getStartingPoint tg ti ii + ((k + 1 : ℕ) : ℚ) * w ∧
      r.time_from_vowel_onset =
        r.time_of_formant_measurements - getStartingPoint tg ti ii) ∧
    (∀ (k1 k2 : ℕ) (r1 r2 : Row),
      (rowsForInterval w fm file tg ti ii).get? k1 = some r1 →
      (rowsForInterval w fm file tg ti ii).get? k2 = some r2 →
      k1 < k2 →
      r1.time_of_formant_measurements < r2.time_of_formant_measurements) ∧
    (∀ r : Row, (rowsForInterval w fm file tg ti ii).get? 0 = some r →
      r.time_of_formant_measurements = getStartingPoint tg ti ii + w) ∧
    (∀ (k : ℕ) (r : Row),
      (rowsForInterval w fm file tg ti ii).get? k = some r →
      r.time_of_formant_measurements ≠ getStartingPoint tg ti ii) := by
  have htime : ∀ (k : ℕ) (r : Row),
      (rowsForInterval w fm file tg ti ii).get? k = some r →
      r.time_of_formant_measurements =
        getStartingPoint tg ti ii + ((k + 1 : ℕ) : ℚ) * w := by
    intro k r h
    rw [get?_rowsForInterval h]
    show getStartingPoint tg ti ii + ((1 + k : ℕ) : ℚ) * w = _
    push_cast
    ring
  refine ⟨fun k r h => ⟨htime k r h, ?_⟩, fun k1 k2 r1 r2 h1 h2 hlt => ?_,
    fun r h => ?_, fun k r h => ?_⟩
  · rw [get?_rowsForInterval h]
    rfl
  · rw [htime k1 r1 h1, htime k2 r2 h2]
    have hc : ((k1 + 1 : ℕ) : ℚ) < ((k2 + 1 : ℕ) : ℚ) :=
      Nat.cast_lt.mpr (by omega)
    have := mul_lt_mul_of_pos_right hc hw
    linarith
  · rw [htime 0 r h]
    norm_num
  · rw [htime k r h]
    have hpos : (0 : ℚ) < ((k + 1 : ℕ) : ℚ) * w :=
      mul_pos (by exact_mod_cast Nat.succ_pos k) hw
    intro hcontra
    nlinarith

/-- C3 witness: in `tgDemo`, the first row's sample time is
`start + window` and differs from the onset. -/
theorem sample_times_witness :
    rowDemo1.time_of_formant_measurements = getStartingPoint tgDemo 2 1 + 1 :=
  (sample_times 1 fmLin "p113_int.wav" tgDemo 2 1 (by norm_num)).2.2.1 rowDemo1
    (by rw [tgDemo_interval_rows]; rfl)

/-- When the containment query answers `0`, no interval of the addressed
tier contains the time. -/
lemma getIntervalAtTime_eq_zero {tg : TextGrid} {k : ℕ} {t : ℚ}
    (h : getIntervalAtTime tg k t = 0) :
    ∀ tier, tg.tiers.get? (k - 1) = some tier →
      ∀ iv ∈ tier.intervals, ¬(iv.start ≤ t ∧ t ≤ iv.stop) := by
  intro tier htier iv hiv
  simp only [getIntervalAtTime, htier] at h
  cases hf : tier.intervals.findIdx? (fun iv => containsTime iv t) with
  | none =>
    have := List.findIdx?_eq_none_iff.mp hf iv hiv
    simpa [containsTime] using this
  | some i => simp only [hf] at h; omega

/-- When the containment query answers `i + 1`, the tier's interval at
0-based position `i` contains the time. -/
lemma getIntervalAtTime_eq_succ {tg : TextGrid} {k : ℕ} {t : ℚ} {i : ℕ}
    (h : getIntervalAtTime tg k t = i + 1) :
    ∃ tier, tg.tiers.get? (k - 1) = some tier ∧
      ∃ hi : i < tier.intervals.length,
        (tier.intervals.get ⟨i, hi⟩).start ≤ t ∧
        t ≤ (tier.intervals.get ⟨i, hi⟩).stop := by
  rw [getIntervalAtTime] at h
  cases htier : tg.tiers.get? (k - 1) with
  | none => simp only [htier] at h; omega
  | some tier =>
    simp only [htier] at h
    cases hf : tier.intervals.findIdx? (fun iv => containsTime iv t) with
    | none => simp only [hf] at h; omega
    | some j =>
      simp only [hf] at h
      have hj : j = i := by omega
      subst hj
      obtain ⟨hlt, hp, _⟩ := List.findIdx?_eq_some_iff_getElem.mp hf
      refine ⟨tier, rfl, hlt, ?_⟩
      have := of_decide_eq_true (by simpa [containsTime] using hp)
      simpa [List.get_eq_getElem] using this

/-- C4: every emitted row's Word field follows the midpoint lookup on
tier 1 with the `"PROBLEM"` sentinel: it equals the label found at the
token midpoint when that label is non-empty, and `"PROBLEM"` when the
lookup finds no containing interval (query result `0`) or the label is
empty; and the row count equals the segment count whatever the word tier
holds, so the sentinel cases never suppress a row. -/
theorem word_field_sentinel (w : ℚ) (fm : Formant) (file : String)
    (tg : TextGrid) (ti ii : ℕ) (r : Row)
    (hr : r ∈ rowsForInterval w fm file tg ti ii) :
    (∀ i : ℕ,
      getIntervalAtTime tg 1
        ((getEndPoint tg ti ii + getStartingPoint tg ti ii) / 2) = i →
      (getLabelOfInterval tg 1 i = "" → r.word = "PROBLEM") ∧
      (getLabelOfInterval tg 1 i ≠ "" → r.word = getLabelOfInterval tg 1 i)) ∧
    (getIntervalAtTime tg 1
        ((getEndPoint tg ti ii + getStartingPoint tg ti ii) / 2) = 0 →
      r.word = "PROBLEM") ∧
    (∀ i : ℕ,
      getIntervalAtTime tg 1
        ((getEndPoint tg ti ii + getStartingPoint tg ti ii) / 2) = i + 1 →
      ∃ tier, tg.tiers.get? 0 = some tier ∧
        ∃ hi : i < tier.intervals.length,
          (tier.intervals.get ⟨i, hi⟩).start ≤
              (getEndPoint tg ti ii + getStartingPoint tg ti ii) / 2 ∧
            (getEndPoint tg ti ii + getStartingPoint tg ti ii) / 2 ≤
              (tier.intervals.get ⟨i, hi⟩).stop ∧
          ((tier.intervals.get ⟨i, hi⟩).label ≠ "" →
            r.word = (tier.intervals.get ⟨i, hi⟩).label) ∧
          ((tier.intervals.get ⟨i, hi⟩).label = "" →
            r.word = "PROBLEM")) ∧
    ((rowsForInterval w fm file tg ti ii).length =
      (pyInt ((getEndPoint tg ti ii - getStartingPoint tg ti ii) / w)).toNat) := by
  obtain ⟨hg, k, _, _, hrw⟩ := of_mem_rowsForInterval hr
  have hword : r.word =
      (if wordAtMidpoint tg (getStartingPoint tg ti ii)
          (getEndPoint tg ti ii) != "" then
        wordAtMidpoint tg (getStartingPoint tg ti ii) (getEndPoint tg ti ii)
      else "PROBLEM") := by
    rw [hrw]; rfl
  have hwm : wordAtMidpoint tg (getStartingPoint tg ti ii)
      (getEndPoint tg ti ii) =
      getLabelOfInterval tg 1 (getIntervalAtTime tg 1
        ((getEndPoint tg ti ii + getStartingPoint tg ti ii) / 2)) := rfl
  have hcase : ∀ i : ℕ,
      getIntervalAtTime tg 1
        ((getEndPoint tg ti ii + getStartingPoint tg ti ii) / 2) = i →
      (getLabelOfInterval tg 1 i = "" → r.word = "PROBLEM") ∧
      (getLabelOfInterval tg 1 i ≠ "" → r.word = getLabelOfInterval tg 1 i) := by
    intro i hi
    rw [hword, hwm, hi]
    constructor
    · intro he; rw [he]; simp
    · intro hne; rw [if_pos (by simpa using hne)]
  refine ⟨hcase, ?_, ?_, ?_⟩
  · intro h0
    exact (hcase 0 h0).1 (by simp [getLabelOfInterval])
  · intro i hi
    obtain ⟨tier, htier, hlt, hs, he⟩ := getIntervalAtTime_eq_succ hi
    have hlab : getLabelOfInterval tg 1 (i + 1) =
        (tier.intervals.get ⟨i, hlt⟩).label := by
      rw [getLabelOfInterval]
      rw [if_neg (by omega)]
      simp only [Nat.add_sub_cancel, Nat.sub_self, htier]
      simp [List.get?_eq_getElem?, List.getElem?_eq_getElem hlt,
        List.get_eq_getElem]
    refine ⟨tier, htier, hlt, hs, he, ?_, ?_⟩
    · intro hne
      have := (hcase (i + 1) hi).2 (by rw [hlab]; exact hne)
      rw [this, hlab]
    · intro he2
      exact (hcase (i + 1) hi).1 (by rw [hlab]; exact he2)
  · rw [rowsForInterval_of_guard hg, List.length_map, List.length_range']

/-- C4 witness: in `tgDemo` the midpoint lookup finds interval 1 of the
word tier, whose label `no` is non-empty, and the row carries it. -/
theorem word_field_sentinel_witness :
    rowDemo1.word = getLabelOfInterval tgDemo 1 1 :=
  ((word_field_sentinel 1 fmLin "p113_int.wav" tgDemo 2 1 rowDemo1
      (by rw [tgDemo_interval_rows]; simp)).1 1
    (by norm_num [getIntervalAtTime, getEndPoint, getStartingPoint, tgDemo,
      containsTime, List.findIdx?])).2 (by decide)

/-- C5: the word-context lookup is positional, never name-resolved:
renaming every tier leaves it unchanged; only the FIRST tier's intervals
matter to it (tier index 1 is hard-coded); and every emitted row's Word
field is built from this positional lookup at the token midpoint. -/
theorem word_tier_positional :
    (∀ (f : String → String) (tg : TextGrid) (s e : ℚ),
      wordAtMidpoint (withTierNames f tg) s e = wordAtMidpoint tg s e) ∧
    (∀ (nm nm2 : String) (ivs : List Interval) (rest rest2 : List Tier)
        (s e : ℚ),
      wordAtMidpoint ⟨⟨nm, ivs⟩ :: rest⟩ s e =
        wordAtMidpoint ⟨⟨nm2, ivs⟩ :: rest2⟩ s e) ∧
    (∀ (w : ℚ) (fm : Formant) (file : String) (tg : TextGrid) (ti ii : ℕ)
        (r : Row), r ∈ rowsForInterval w fm file tg ti ii →
      r.word =
        (if wordAtMidpoint tg (getStartingPoint tg ti ii)
            (getEndPoint tg ti ii) != "" then
          wordAtMidpoint tg (getStartingPoint tg ti ii) (getEndPoint tg ti ii)
        else "PROBLEM")) := by
  refine ⟨fun f tg s e => ?_, fun nm nm2 ivs rest rest2 s e => ?_,
    fun w fm file tg ti ii r hr => ?_⟩
  · cases tg with
    | mk tiers =>
      cases tiers with
      | nil => rfl
      | cons t rest =>
        simp only [wordAtMidpoint, withTierNames, getIntervalAtTime,
          getLabelOfInterval, List.map_cons, List.get?]
        cases hf : t.intervals.findIdx?
            (fun iv => containsTime iv ((e + s) / 2)) with
        | none => rfl
        | some i => simp
  · simp only [wordAtMidpoint, getIntervalAtTime, getLabelOfInterval,
      List.get?]
    cases hf : ivs.findIdx? (fun iv => containsTime iv ((e + s) / 2)) with
    | none => rfl
    | some i => simp
  · obtain ⟨hg, k, _, _, rfl⟩ := of_mem_rowsForInterval hr
    rfl

/-- C5 witness: the first demo row's Word field is the positional lookup's
sentinel-guarded value. -/
theorem word_tier_positional_witness :
    rowDemo1.word =
      (if wordAtMidpoint tgDemo (getStartingPoint tgDemo 2 1)
          (getEndPoint tgDemo 2 1) != "" then
        wordAtMidpoint tgDemo (getStartingPoint tgDemo 2 1)
          (getEndPoint tgDemo 2 1)
      else "PROBLEM") :=
  word_tier_positional.2.2 1 fmLin "p113_int.wav" tgDemo 2 1 rowDemo1
    (by rw [tgDemo_interval_rows]; simp)

/-- C6: every emitted row's Vowel field is exactly the first character of
the interval label — the `+` marker and any other trailing characters are
dropped. -/
theorem vowel_label_first_char (w : ℚ) (fm : Formant) (file : String)
    (tg : TextGrid) (ti ii : ℕ) (r : Row)
    (hr : r ∈ rowsForInterval w fm file tg ti ii) :
    r.vowel = (getLabelOfInterval tg ti ii).take 1 ∧
    (∀ c cs, (getLabelOfInterval tg ti ii).data = c :: cs →
      r.vowel = String.mk [c]) := by
  obtain ⟨hg, k, _, _, rfl⟩ := of_mem_rowsForInterval hr
  refine ⟨rfl, fun c cs h => ?_⟩
  show String.take (getLabelOfInterval tg ti ii) 1 = String.mk [c]
  rw [String.take_eq, h]
  rfl

/-- C6 witness: the demo label `o+` yields Vowel `o`: the `+` is
dropped. -/
theorem vowel_label_first_char_witness :
    getLabelOfInterval tgDemo 2 1 = "o+" ∧ rowDemo1.vowel = "o" ∧
    rowDemo1.vowel = (getLabelOfInterval tgDemo 2 1).take 1 :=
  ⟨by decide, by decide,
   (vowel_label_first_char 1 fmLin "p113_int.wav" tgDemo 2 1 rowDemo1
     (by rw [tgDemo_interval_rows]; simp)).1⟩

/-- Concrete evaluation: the rows of `tgDemo` under the everywhere-
undefined front-end `fmNone`. -/
lemma tgDemo_interval_rows_fmNone :
    rowsForInterval 1 fmNone "p113_int.wav" tgDemo 2 1 =
      [segmentRow 1 fmNone "p113_int.wav" "o+" 0 "no" 1,
       segmentRow 1 fmNone "p113_int.wav" "o+" 0 "no" 2] := by
  norm_num [rowsForInterval, getLabelOfInterval, getStartingPoint,
    getEndPoint, wordAtMidpoint, getIntervalAtTime, containsTime, pyInt,
    vowelGuard, vowelRegexMatches, vowelClass, List.range', tgDemo,
    List.findIdx?]
  simp

/-- C7: the recorded F1 and F2 values of every emitted row are exactly the
front-end's value-at-time readings for components 1 and 2 at that row's
sample time, passed through unmodified (an undefined reading, `none`,
included); and the row count does not depend on the front-end at all, so
undefined readings never suppress a row. -/
theorem formant_passthrough :
    (∀ (w : ℚ) (fm fm2 : Formant) (file : String) (tg : TextGrid)
        (ti ii : ℕ),
      (rowsForInterval w fm file tg ti ii).length =
        (rowsForInterval w fm2 file tg ti ii).length) ∧
    (∀ (w : ℚ) (fm : Formant) (file : String) (tg : TextGrid) (ti ii : ℕ)
        (r : Row), r ∈ rowsForInterval w fm file tg ti ii →
      r.f1 = fm 1 r.time_of_formant_measurements ∧
      r.f2 = fm 2 r.time_of_formant_measurements) := by
  constructor
  · intro w fm fm2 file tg ti ii
    by_cases hg : vowelGuard (getLabelOfInterval tg ti ii) = true
    · rw [rowsForInterval_of_guard hg, rowsForInterval_of_guard hg]
      simp
    · rw [rowsForInterval_of_not_guard (by simpa using hg),
        rowsForInterval_of_not_guard (by simpa using hg)]
  · intro w fm file tg ti ii r hr
    obtain ⟨hg, k, _, _, rfl⟩ := of_mem_rowsForInterval hr
    exact ⟨rfl, rfl⟩

/-- C7 witness: with the everywhere-undefined front-end, the first demo
row records the undefined readings as-is and is still emitted. -/
theorem formant_passthrough_witness :
    (segmentRow 1 fmNone "p113_int.wav" "o+" 0 "no" 1).f1 =
      fmNone 1 (segmentRow 1 fmNone "p113_int.wav" "o+" 0
        "no" 1).time_of_formant_measurements ∧
    (segmentRow 1 fmNone "p113_int.wav" "o+" 0 "no" 1).f2 =
      fmNone 2 (segmentRow 1 fmNone "p113_int.wav" "o+" 0
        "no" 1).time_of_formant_measurements :=
  formant_passthrough.2 1 fmNone "p113_int.wav" tgDemo 2 1
    (segmentRow 1 fmNone "p113_int.wav" "o+" 0 "no" 1)
    (by rw [tgDemo_interval_rows_fmNone]; simp)

/-- Folding a guarded body over a list is flat-mapping over the filtered
list. -/
lemma flatMap_guard {α β : Type} (c : α → Bool) (g : α → List β) :
    ∀ l : List α,
      (l.flatMap fun a => if c a = true then g a else []) =
        (l.filter c).flatMap g := by
  intro l
  induction l with
  | nil => rfl
  | cons a l ih =>
    rw [List.flatMap_cons, List.filter_cons]
    by_cases h : c a = true
    · rw [if_pos h, if_pos h, List.flatMap_cons, ih]
    · rw [if_neg h, if_neg h, ih, List.nil_append]

/-- The batch keeps exactly the `.wav` files whose same-stem TextGrid
exists, in enumeration order. -/
lemma processBatch_eq_filter (pt : List String) (w : ℚ) (tg_path : String)
    (tgExists : String → Bool) (loadTG : String → TextGrid)
    (loadFormant : String → Formant) (files : List String) :
    processBatch pt w tg_path tgExists loadTG loadFormant files =
      (files.filter (fun f =>
        f.endsWith ".wav" && tgExists (tgPathFor tg_path f))).flatMap
        (fun file =>
          rowsForFile pt w (loadFormant file) file (loadTG file)) := by
  have hpt : (fun file =>
      if file.endsWith ".wav" = true then
        if tgExists (tgPathFor tg_path file) = true then
          rowsForFile pt w (loadFormant file) file (loadTG file)
        else []
      else []) =
      (fun file =>
        if (file.endsWith ".wav" && tgExists (tgPathFor tg_path file)) = true
        then rowsForFile pt w (loadFormant file) file (loadTG file)
        else []) := by
    funext file
    by_cases h1 : file.endsWith ".wav" = true
    · by_cases h2 : tgExists (tgPathFor tg_path file) = true
      · simp [h1, h2]
      · simp [h1, h2]
    · simp [h1]
  rw [processBatch, hpt, flatMap_guard]

/-- C8: the batch equals, rows for rows, the filter of the directory
listing to `.wav` files with an existing same-stem alignment file,
flat-mapped in enumeration order; and a `.wav` file without its alignment
pair (anywhere in the listing) is skipped silently: removing it changes
nothing. -/
theorem file_pairing (pt : List String) (w : ℚ) (tg_path : String)
    (tgExists : String → Bool) (loadTG : String → TextGrid)
    (loadFormant : String → Formant) :
    (∀ files : List String,
      processBatch pt w tg_path tgExists loadTG loadFormant files =
        (files.filter (fun f =>
          f.endsWith ".wav" && tgExists (tgPathFor tg_path f))).flatMap
          (fun file =>
            rowsForFile pt w (loadFormant file) file (loadTG file))) ∧
    (∀ (fs1 fs2 : List String) (f : String),
      tgExists (tgPathFor tg_path f) = false →
      processBatch pt w tg_path tgExists loadTG loadFormant
          (fs1 ++ f :: fs2) =
        processBatch pt w tg_path tgExists loadTG loadFormant
          (fs1 ++ fs2)) := by
  refine ⟨fun files =>
    processBatch_eq_filter pt w tg_path tgExists loadTG loadFormant files,
    fun fs1 fs2 f hf => ?_⟩
  rw [processBatch_eq_filter, processBatch_eq_filter, List.filter_append,
    List.filter_append, List.filter_cons]
  rw [if_neg (by simp [hf])]

/-- C8 witness: with no alignment file present, the lone `.wav` file is
skipped: the batch output is that of the empty listing. -/
theorem file_pairing_witness :
    processBatch ["phones"] 1 "data/" (fun _ => false) (fun _ => tgDemo)
        (fun _ => fmLin) ([] ++ "a.wav" :: []) =
      processBatch ["phones"] 1 "data/" (fun _ => false) (fun _ => tgDemo)
        (fun _ => fmLin) ([] ++ []) :=
  (file_pairing ["phones"] 1 "data/" (fun _ => false) (fun _ => tgDemo)
    (fun _ => fmLin)).2 [] [] "a.wav" rfl

/-- Splitting a list of at least 9 elements around position 4 and before
the 4-element suffix, the way the source's filename slices do. -/
lemma list_decomp (l : List Char) (h9 : 9 ≤ l.length) :
    l = l.take 4 ++ (l.drop 4).take 1 ++ (l.take (l.length - 4)).drop 5 ++
      l.drop (l.length - 4) := by
  have h1 : l.take 4 ++ (l.drop 4).take 1 = l.take 5 :=
    (List.take_add l 4 1).symm
  have h2 : (l.take (l.length - 4)).take 5 = l.take 5 := by
    rw [List.take_take]
    congr 1
    omega
  have h3 : l.take 5 ++ (l.take (l.length - 4)).drop 5 =
      l.take (l.length - 4) := by
    conv_lhs => rw [← h2]
    exact List.take_append_drop 5 (l.take (l.length - 4))
  calc l = l.take (l.length - 4) ++ l.drop (l.length - 4) :=
        (List.take_append_drop _ l).symm
    _ = (l.take 5 ++ (l.take (l.length - 4)).drop 5) ++
        l.drop (l.length - 4) := by rw [h3]
    _ = l.take 4 ++ (l.drop 4).take 1 ++ (l.take (l.length - 4)).drop 5 ++
        l.drop (l.length - 4) := by rw [← h1]

/-- C9: every row of a processed file carries Participant = the first four
characters of the filename and Task = the filename stem with its first
five characters removed; a stem of five or fewer characters gives an empty
Task, and for a long enough filename the filename decomposes into
Participant, the delimiter at index 4, Task, and the 4-character
extension, so the delimiter lands in neither field. -/
theorem participant_task_fields (pt : List String) (w : ℚ) (fm : Formant)
    (file : String) (tg : TextGrid) (r : Row)
    (hr : r ∈ rowsForFile pt w fm file tg) :
    r.participant = file.take 4 ∧
    r.task = (file.take (file.length - 4)).drop 5 ∧
    (file.length - 4 ≤ 5 → r.task = "") ∧
    (9 ≤ file.length →
      file = r.participant ++ (file.drop 4).take 1 ++ r.task ++
        file.drop (file.length - 4)) := by
  obtain ⟨ti, ii, hri⟩ := of_mem_rowsForFile hr
  obtain ⟨hg, k, _, _, rfl⟩ := of_mem_rowsForInterval hri
  refine ⟨?_, ?_, fun hle => ?_, fun h9 => ?_⟩
  · simp only [segmentRow]
  · simp only [segmentRow]
  · simp only [segmentRow]
    rw [String.take_eq, String.drop_eq]
    apply String.ext
    show (file.data.take (file.length - 4)).drop 5 = ([] : List Char)
    rw [List.drop_eq_nil_iff]
    have hdl : file.data.length = file.length := rfl
    rw [List.length_take]
    omega
  · simp only [segmentRow]
    apply String.ext
    simp only [String.data_append, String.take_eq, String.drop_eq]
    have hdl : file.data.length = file.length := rfl
    have hd := list_decomp file.data (by omega)
    rw [hdl] at hd
    exact hd

/-- C9 witness: `p113_int.wav` gives Participant `p113` and Task `int`,
and the delimiter `_` at index 4 lands in neither field. -/
theorem participant_task_fields_witness :
    rowDemo1.participant = ("p113_int.wav" : String).take 4 ∧
    rowDemo1.task = (("p113_int.wav" : String).take
      (("p113_int.wav" : String).length - 4)).drop 5 ∧
    "p113_int.wav" = rowDemo1.participant ++
      (("p113_int.wav" : String).drop 4).take 1 ++ rowDemo1.task ++
      ("p113_int.wav" : String).drop
        (("p113_int.wav" : String).length - 4) := by
  have h := participant_task_fields ["phones"] 1 fmLin "p113_int.wav" tgDemo
    rowDemo1 (by rw [tgDemo_file_rows]; simp)
  exact ⟨h.1, h.2.1, h.2.2.2 (by decide)⟩

/-- C10: the word lookup is hoisted above the segment loop, so any two
rows emitted for the same vowel token share the same Word value, the same
Vowel label, and the same token onset time. -/
theorem token_rows_uniform (w : ℚ) (fm : Formant) (file : String)
    (tg : TextGrid) (ti ii : ℕ) (r1 r2 : Row)
    (h1 : r1 ∈ rowsForInterval w fm file tg ti ii)
    (h2 : r2 ∈ rowsForInterval w fm file tg ti ii) :
    r1.word = r2.word ∧ r1.vowel = r2.vowel ∧
    r1.vowel_onset_time = r2.vowel_onset_time := by
  obtain ⟨_, k1, _, _, rfl⟩ := of_mem_rowsForInterval h1
  obtain ⟨_, k2, _, _, rfl⟩ := of_mem_rowsForInterval h2
  exact ⟨rfl, rfl, rfl⟩

/-- C10 witness: the two demo rows of one token agree on Word, Vowel and
onset. -/
theorem token_rows_uniform_witness :
    rowDemo1.word = rowDemo2.word ∧ rowDemo1.vowel = rowDemo2.vowel ∧
    rowDemo1.vowel_onset_time = rowDemo2.vowel_onset_time :=
  token_rows_uniform 1 fmLin "p113_int.wav" tgDemo 2 1 rowDemo1 rowDemo2
    (by rw [tgDemo_interval_rows]; simp) (by rw [tgDemo_interval_rows]; simp)

end VSD
